import Mathlib

set_option maxHeartbeats 1000000

/-!
Shallow embedding of `mazemdp/mdp.py` (SimpleMazeMDP): the discrete-state MDP
simulation engine.  Floating-point values are embedded as rationals; every
random draw (the uniform draw consumed by the discrete sampler, the standard
normal draw consumed by reward noise) is threaded explicitly as an argument.
The external plotter is not part of the core: `render` is embedded as the
record of arguments the engine forwards to the plotter.
-/

/-- Modelled from the spec: the Discrete Sampler (`discreteProb` from
`mazemdp/toolbox.py`) is used by `mdp.py` but its code is not among the given
sources.  Per spec §4.1: given a probability vector, draw a uniform value
`u` in `[0,1)`, accumulate the weights in index order, and return the first
index at which the cumulative sum exceeds `u`; if the accumulated sum never
strictly exceeds `u`, the last index is returned.  The draw `u` is passed
explicitly. -/
def discreteProb : List ℚ → ℚ → Nat
  | [], _ => 0
  | [_], _ => 0
  | p :: q :: rest, u => if u < p then 0 else discreteProb (q :: rest) (u - p) + 1

/-- The sampler contract of spec §8: on a non-empty weight vector the returned
index is in `[0, N)`. -/
theorem discreteProb_lt_length (l : List ℚ) (u : ℚ) (h : l ≠ []) :
    discreteProb l u < l.length := by
  induction l generalizing u with
  | nil => exact absurd rfl h
  | cons p rest ih =>
    cases rest with
    | nil => simp [discreteProb]
    | cons q rest2 =>
      rw [discreteProb]
      split
      · simp
      · have := ih (u - p) (by simp)
        simpa using Nat.succ_lt_succ this

/-- Embedding of `SimpleActionSpace`: the ordered action sequence and the
recorded `size` field set by `__init__`. -/
structure SimpleActionSpace (α : Type) where
  actions : List α
  size : Nat
deriving Repr

/-- Embedding of `SimpleActionSpace.__init__(action_list, nactions)`.  Python
is dynamically typed: the `np.arange(nactions)` branch produces integers while
an explicit `action_list` produces values of the caller's type `α`, so the
element type of the embedded space is the sum `Nat ⊕ α`.  The arange branch is
taken when `action_list` is absent or empty. -/
def SimpleActionSpace.init {α : Type} (action_list : Option (List α))
    (nactions : Nat) : SimpleActionSpace (Nat ⊕ α) :=
  let acts : List (Nat ⊕ α) :=
    match action_list with
    | none => (List.range nactions).map Sum.inl
    | some l => if l.length = 0 then (List.range nactions).map Sum.inl else l.map Sum.inr
  { actions := acts, size := acts.length }

/-- Embedding of `SimpleActionSpace.sample(prob_list)`: when `prob_list` is
absent it is replaced by `np.ones(size)/size`; the draw is delegated to
`discreteProb` and the resulting index is mapped through `actions`.  The
Python indexing `self.actions[index]` raises when out of range, embedded as
`Option`. -/
def SimpleActionSpace.sample {α : Type} (sp : SimpleActionSpace α)
    (prob_list : Option (List ℚ)) (u : ℚ) : Option α :=
  let pl :=
    match prob_list with
    | none => List.replicate sp.size ((1 : ℚ) / (sp.size : ℚ))
    | some l => l
  sp.actions[discreteProb pl u]?

/-- The `info` dictionary returned by `Mdp.step`: the raw transition
probability row used and the sampled noise value. -/
structure StepInfo where
  transition_probs : List ℚ
  noise : ℚ
deriving Repr, DecidableEq

/-- Embedding of the `Mdp` object: the configuration fields set by
`__init__` together with the mutable episode state.  `current_state` is
`none` before the first `reset` (Python `None`); `last_action_achieved` does
not exist until `reset` first assigns it, embedded as `Option Bool` with
`none` meaning "attribute not set". -/
structure Mdp where
  nb_states : Nat
  action_space : SimpleActionSpace (Nat ⊕ ℚ)
  P0 : List ℚ
  P : Nat → Nat → List ℚ
  r : Nat → Nat → ℚ
  gamma : ℚ
  terminal_states : List Nat
  timeout : Nat
  has_state : Bool
  timestep : Nat
  current_state : Option Nat
  last_action_achieved : Option Bool

/-- Embedding of `Mdp.__init__`.  The constructor asserts `timeout > 10`
(an assertion failure halts construction, embedded as `none`); it defaults a
missing `terminal_states` to the empty list, sets `timestep` to 0 and
`current_state` to `None`, and records the configuration arrays.  The plotter
argument is an external collaborator and is not part of the embedded state. -/
def Mdp.init (nb_states : Nat) (action_space : SimpleActionSpace (Nat ⊕ ℚ))
    (start_distribution : List ℚ) (transition_matrix : Nat → Nat → List ℚ)
    (reward_matrix : Nat → Nat → ℚ) (gamma : ℚ)
    (terminal_states : Option (List Nat)) (timeout : Nat) (has_state : Bool) :
    Option Mdp :=
  if 10 < timeout then
    some
      { nb_states := nb_states
        action_space := action_space
        P0 := start_distribution
        P := transition_matrix
        r := reward_matrix
        gamma := gamma
        terminal_states := terminal_states.getD []
        timeout := timeout
        has_state := has_state
        timestep := 0
        current_state := none
        last_action_achieved := none }
  else none

/-- Embedding of the Python test `self.current_state in self.terminal_states`
(the first line of `Mdp.done`): `None` is never an element of the integer
list `terminal_states`. -/
def Mdp.inTerminal (m : Mdp) : Bool :=
  match m.current_state with
  | some s => decide (s ∈ m.terminal_states)
  | none => false

/-- Embedding of `Mdp.done`: true when `current_state` is in the
terminal-state list, otherwise the value of `timestep == timeout`. -/
def Mdp.done (m : Mdp) : Bool :=
  if m.inTerminal then true else m.timestep == m.timeout

/-- Embedding of `Mdp.reset(uniform)`: draws the initial state from a uniform
distribution over `nb_states - 1` outcomes (`np.ones(nb_states-1) /
(nb_states-1)`) when `uniform` is true, from `P0` otherwise; sets `timestep`
to 0 and `last_action_achieved` to `False`; returns the new `current_state`
together with the post-call object. -/
def Mdp.reset (m : Mdp) (uniform : Bool) (draw : ℚ) : Nat × Mdp :=
  let s :=
    if uniform then
      discreteProb
        (List.replicate (m.nb_states - 1) ((1 : ℚ) / ((m.nb_states - 1 : Nat) : ℚ))) draw
    else
      discreteProb m.P0 draw
  (s, { m with current_state := some s, timestep := 0, last_action_achieved := some false })

/-- Embedding of `Mdp.step(u, deviation)`.  `z` is the standard-normal draw
`np.random.randn()` and `draw` the uniform draw consumed by `discreteProb`.
Before any `reset`, `current_state` is `None` and the numpy indexing
`self.r[None, u]` raises, embedded as `none`.  Mirrors the source order:
noise, reward from the pre-update state, next state sampled from
`P[current_state, u, :]`, `timestep` incremented, `info` built from the
pre-update state's probability row, `current_state` updated, then the done
check; returns `[next_state, reward, done, info]` plus the post-call
object. -/
def Mdp.step (m : Mdp) (u : Nat) (deviation z draw : ℚ) :
    Option (Nat × ℚ × Bool × StepInfo × Mdp) :=
  match m.current_state with
  | none => none
  | some s =>
    let noise := deviation * z
    let reward := m.r s u + noise
    let next_state := discreteProb (m.P s u) draw
    let info : StepInfo := { transition_probs := m.P s u, noise := noise }
    let m' : Mdp := { m with timestep := m.timestep + 1, current_state := some next_state }
    some (next_state, reward, m'.done, info, m')

/-- The argument record a `Mdp.render` call forwards to the external plotter.
`agent_state` distinguishes the keyword being omitted (outer `none`) from it
being passed explicitly as `None` (`some none`); the passed value is either
the `agent_pos` override (`Sum.inl`) or the engine's `current_state`
(`Sum.inr`).  `policy` is `none` when the keyword is not forwarded. -/
structure RenderArgs (pos : Type) where
  v : List ℚ
  agent_state : Option (Option (pos ⊕ Nat))
  policy : Option (List ℚ)
  title : String
  mode : String

/-- Embedding of `Mdp.render(v, policy, agent_pos, title, mode)`: defaults
`v` and `policy` to empty arrays, then resolves the agent state by branch
priority: no discrete state concept, explicit `agent_pos` override, existing
`current_state` (forwarded with the policy), else neither. -/
def Mdp.render {pos : Type} (m : Mdp) (v : Option (List ℚ))
    (policy : Option (List ℚ)) (agent_pos : Option pos) (title mode : String) :
    RenderArgs pos :=
  let v := v.getD []
  let policy := policy.getD []
  if m.has_state = false then
    { v := v, agent_state := some none, policy := none, title := title, mode := mode }
  else
    match agent_pos with
    | some p =>
      { v := v, agent_state := some (some (Sum.inl p)), policy := none
        title := title, mode := mode }
    | none =>
      match m.current_state with
      | some s =>
        { v := v, agent_state := some (some (Sum.inr s)), policy := some policy
          title := title, mode := mode }
      | none =>
        { v := v, agent_state := none, policy := none, title := title, mode := mode }

/-- One `step` call's inputs: the action and the random draws consumed. -/
structure StepInput where
  u : Nat
  deviation : ℚ
  z : ℚ
  draw : ℚ

/-- A sequence of `step` calls folded over the engine, keeping only the
post-call object (the callers' view of the mutated Python object). -/
def Mdp.run (m : Mdp) : List StepInput → Option Mdp
  | [] => some m
  | i :: rest =>
    match m.step i.u i.deviation i.z i.draw with
    | none => none
    | some (_, _, _, _, m') => m'.run rest

/-- A concrete 3-state engine used to instantiate the theorems: state 2 is
terminal, every transition row puts all mass on state 0, the reward is
constant 1, and the episode cap is the spec's boundary value 11.  The engine
is shown just after a reset that sampled state 0. -/
def testMdp : Mdp where
  nb_states := 3
  action_space := { actions := [Sum.inl 0, Sum.inl 1], size := 2 }
  P0 := [1, 0, 0]
  P := fun _ _ => [1, 0, 0]
  r := fun _ _ => 1
  gamma := 9 / 10
  terminal_states := [2]
  timeout := 11
  has_state := true
  timestep := 0
  current_state := some 0
  last_action_achieved := some false

/-- The same engine before any `reset`: `current_state` is `None` and the
`last_action_achieved` attribute does not exist yet. -/
def testMdpPreReset : Mdp :=
  { testMdp with current_state := none, last_action_achieved := none }

/-- The test engine with `timestep` already at its `timeout`. -/
def testMdpAtTimeout : Mdp :=
  { testMdp with timestep := 11 }

/-- Eleven identical step calls (action 0, no noise, draws 0) for the
timeout boundary test. -/
def c2Inputs : List StepInput := List.replicate 11 ⟨0, 0, 0, 0⟩

/-- A concrete action space for instantiating the constructor theorem. -/
def testActionSpace : SimpleActionSpace (Nat ⊕ ℚ) :=
  { actions := [Sum.inl 0], size := 1 }

/-! Helper lemmas shared by the claim theorems. -/

/-- Unfolding `Mdp.step` at a defined `current_state`: the returned tuple and
the post-call object, explicitly. -/
theorem Mdp.step_some (m : Mdp) (s : Nat) (h : m.current_state = some s)
    (u : Nat) (deviation z draw : ℚ) :
    m.step u deviation z draw =
      some (discreteProb (m.P s u) draw, m.r s u + deviation * z,
        Mdp.done { m with timestep := m.timestep + 1
                          current_state := some (discreteProb (m.P s u) draw) },
        { transition_probs := m.P s u, noise := deviation * z },
        { m with timestep := m.timestep + 1
                 current_state := some (discreteProb (m.P s u) draw) }) := by
  simp only [Mdp.step, h]

/-- Characterisation of `Mdp.done` at a defined `current_state`. -/
theorem Mdp.done_iff (m : Mdp) (s : Nat) (h : m.current_state = some s) :
    m.done = true ↔ (s ∈ m.terminal_states ∨ m.timestep = m.timeout) := by
  simp only [Mdp.done, Mdp.inTerminal, h]
  by_cases hs : s ∈ m.terminal_states <;> simp [hs]

/-- A run from a defined `current_state` never fails, leaves the
configuration's terminal states and timeout unchanged, advances `timestep`
by the number of steps, and keeps `current_state` defined. -/
theorem Mdp.run_spec (m : Mdp) (s : Nat) (h : m.current_state = some s)
    (inputs : List StepInput) :
    ∃ m' s', m.run inputs = some m' ∧ m'.current_state = some s' ∧
      m'.timestep = m.timestep + inputs.length ∧
      m'.terminal_states = m.terminal_states ∧ m'.timeout = m.timeout := by
  induction inputs generalizing m s with
  | nil => exact ⟨m, s, rfl, h, by simp, rfl, rfl⟩
  | cons i rest ih =>
    obtain ⟨m', s', hrun, hcs, hts, hterm, hto⟩ :=
      ih { m with timestep := m.timestep + 1
                  current_state := some (discreteProb (m.P s i.u) i.draw) }
        (discreteProb (m.P s i.u) i.draw) rfl
    refine ⟨m', s', ?_, hcs, ?_, by simpa using hterm, by simpa using hto⟩
    · rw [Mdp.run, Mdp.step_some m s h]
      exact hrun
    · simp only [List.length_cons]
      simp at hts
      omega

/-- The `size` recorded by `SimpleActionSpace.__init__` is the length of the
recorded action sequence. -/
theorem SimpleActionSpace.init_size {α : Type} (action_list : Option (List α))
    (nactions : Nat) :
    (SimpleActionSpace.init action_list nactions).size =
      (SimpleActionSpace.init action_list nactions).actions.length := by
  cases action_list with
  | none => simp [SimpleActionSpace.init]
  | some l => by_cases hl : l.length = 0 <;> simp [SimpleActionSpace.init, hl]

/-- C1: on an engine that has been reset (so `current_state` is defined),
`step` increments `timestep` by 1 and updates `current_state` to the sampled
next state before evaluating episode completion; the returned done value is
`done()` of the new object, and it is true exactly when the new
`current_state` is in the terminal-state set or the new `timestep` equals
`timeout`. -/
theorem Mdp.step_updates_then_checks_done (m : Mdp) (s : Nat)
    (h : m.current_state = some s) (u : Nat) (deviation z draw : ℚ) :
    ∃ ns rew dn info m', m.step u deviation z draw = some (ns, rew, dn, info, m') ∧
      m'.timestep = m.timestep + 1 ∧
      m'.current_state = some ns ∧
      dn = m'.done ∧
      (dn = true ↔ (ns ∈ m.terminal_states ∨ m.timestep + 1 = m.timeout)) := by
  refine ⟨discreteProb (m.P s u) draw, m.r s u + deviation * z, _, _,
    { m with timestep := m.timestep + 1
             current_state := some (discreteProb (m.P s u) draw) },
    Mdp.step_some m s h u deviation z draw, rfl, rfl, rfl, ?_⟩
  have hiff := Mdp.done_iff
    { m with timestep := m.timestep + 1
             current_state := some (discreteProb (m.P s u) draw) }
    (discreteProb (m.P s u) draw) rfl
  simpa using hiff

/-- Witness for C1: the concrete engine in state 0 at timestep 0. -/
theorem step_updates_then_checks_done_witness :
    testMdp.current_state = some 0 ∧
    (∃ ns rew dn info m', testMdp.step 0 0 0 0 = some (ns, rew, dn, info, m') ∧
      m'.timestep = testMdp.timestep + 1 ∧
      m'.current_state = some ns ∧
      dn = m'.done ∧
      (dn = true ↔ (ns ∈ testMdp.terminal_states ∨ testMdp.timestep + 1 = testMdp.timeout))) :=
  ⟨rfl, Mdp.step_updates_then_checks_done testMdp 0 rfl 0 0 0 0⟩

/-- C4: with `deviation = 0` the injected noise is exactly zero and `step`
returns the reward-table entry `r[s, a]` unchanged, whatever the normal draw
`z` was. -/
theorem Mdp.step_zero_deviation_exact_reward (m : Mdp) (s : Nat)
    (h : m.current_state = some s) (u : Nat) (z draw : ℚ) :
    ∃ ns dn info m', m.step u 0 z draw = some (ns, m.r s u, dn, info, m') ∧
      info.noise = 0 := by
  have hs := Mdp.step_some m s h u 0 z draw
  refine ⟨discreteProb (m.P s u) draw,
    Mdp.done { m with timestep := m.timestep + 1
                      current_state := some (discreteProb (m.P s u) draw) },
    { transition_probs := m.P s u, noise := 0 * z },
    { m with timestep := m.timestep + 1
             current_state := some (discreteProb (m.P s u) draw) }, ?_, by simp⟩
  rw [hs]
  simp

/-- Witness for C4: the concrete engine, action 0, normal draw 7. -/
theorem step_zero_deviation_exact_reward_witness :
    testMdp.current_state = some 0 ∧
    (∃ ns dn info m', testMdp.step 0 0 7 0 = some (ns, testMdp.r 0 0, dn, info, m') ∧
      info.noise = 0) :=
  ⟨rfl, Mdp.step_zero_deviation_exact_reward testMdp 0 rfl 0 7 0⟩

/-- C9: a `step` call leaves every configuration field of the engine
unchanged (`P`, `r`, `P0`, `nb_states`, `gamma`, the terminal-state set,
`timeout`, the action space, `has_state`); it modifies only the episode
state, setting `timestep` to `timestep + 1` and `current_state` to the
sampled next state.  `done` is embedded as a pure function of the engine, so
it can modify nothing by construction. -/
theorem Mdp.step_preserves_configuration (m : Mdp) (s : Nat)
    (h : m.current_state = some s) (u : Nat) (deviation z draw : ℚ) :
    ∃ ns rew dn info m', m.step u deviation z draw = some (ns, rew, dn, info, m') ∧
      m'.nb_states = m.nb_states ∧ m'.action_space = m.action_space ∧
      m'.P0 = m.P0 ∧ m'.P = m.P ∧ m'.r = m.r ∧ m'.gamma = m.gamma ∧
      m'.terminal_states = m.terminal_states ∧ m'.timeout = m.timeout ∧
      m'.has_state = m.has_state ∧ m'.last_action_achieved = m.last_action_achieved ∧
      m'.timestep = m.timestep + 1 ∧ m'.current_state = some ns :=
  ⟨discreteProb (m.P s u) draw, m.r s u + deviation * z, _, _,
    { m with timestep := m.timestep + 1
             current_state := some (discreteProb (m.P s u) draw) },
    Mdp.step_some m s h u deviation z draw,
    rfl, rfl, rfl, rfl, rfl, rfl, rfl, rfl, rfl, rfl, rfl, rfl⟩

/-- Witness for C9: the concrete engine, one step. -/
theorem step_preserves_configuration_witness :
    testMdp.current_state = some 0 ∧
    (∃ ns rew dn info m', testMdp.step 0 0 0 0 = some (ns, rew, dn, info, m') ∧
      m'.nb_states = testMdp.nb_states ∧ m'.action_space = testMdp.action_space ∧
      m'.P0 = testMdp.P0 ∧ m'.P = testMdp.P ∧ m'.r = testMdp.r ∧ m'.gamma = testMdp.gamma ∧
      m'.terminal_states = testMdp.terminal_states ∧ m'.timeout = testMdp.timeout ∧
      m'.has_state = testMdp.has_state ∧
      m'.last_action_achieved = testMdp.last_action_achieved ∧
      m'.timestep = testMdp.timestep + 1 ∧ m'.current_state = some ns) :=
  ⟨rfl, Mdp.step_preserves_configuration testMdp 0 rfl 0 0 0 0⟩

/-- C10: once `timestep` has reached `timeout`, a further `step` makes
`timestep` strictly exceed `timeout`, and the done value it returns is false
whenever the new state is outside the terminal-state set: the completion
test compares `timestep` to `timeout` by equality, not by
greater-or-equal. -/
theorem Mdp.step_past_timeout_not_done (m : Mdp) (s : Nat)
    (h : m.current_state = some s) (ht : m.timeout ≤ m.timestep)
    (u : Nat) (deviation z draw : ℚ) :
    ∃ ns rew dn info m', m.step u deviation z draw = some (ns, rew, dn, info, m') ∧
      m'.timeout < m'.timestep ∧ dn = m'.done ∧
      (ns ∉ m.terminal_states → dn = false) := by
  refine ⟨discreteProb (m.P s u) draw, m.r s u + deviation * z, _, _,
    { m with timestep := m.timestep + 1
             current_state := some (discreteProb (m.P s u) draw) },
    Mdp.step_some m s h u deviation z draw, by simpa using Nat.lt_succ_of_le ht, rfl, ?_⟩
  intro hns
  have hiff := Mdp.done_iff
    { m with timestep := m.timestep + 1
             current_state := some (discreteProb (m.P s u) draw) }
    (discreteProb (m.P s u) draw) rfl
  rw [Bool.eq_false_iff, Ne, hiff]
  rintro (hmem | htime)
  · exact hns (by simpa using hmem)
  · simp only [] at htime
    omega

/-- Witness for C10: the concrete engine already at its timeout. -/
theorem step_past_timeout_not_done_witness :
    testMdpAtTimeout.current_state = some 0 ∧
    testMdpAtTimeout.timeout ≤ testMdpAtTimeout.timestep ∧
    (∃ ns rew dn info m', testMdpAtTimeout.step 0 0 0 0 = some (ns, rew, dn, info, m') ∧
      m'.timeout < m'.timestep ∧ dn = m'.done ∧
      (ns ∉ testMdpAtTimeout.terminal_states → dn = false)) :=
  ⟨rfl, by decide, Mdp.step_past_timeout_not_done testMdpAtTimeout 0 rfl (by decide) 0 0 0 0⟩

/-- C2: from a freshly reset engine with `timeout` above 10, along any
sequence of `timeout` step calls whose visited states all lie outside the
terminal-state set, the episode is not done after any prefix of fewer than
`timeout` steps and is done exactly after the step that brings `timestep` to
`timeout`. -/
theorem Mdp.run_done_iff_timeout (m : Mdp) (s0 : Nat) (h0 : m.current_state = some s0)
    (hts : m.timestep = 0) (_hT : 10 < m.timeout) (inputs : List StepInput)
    (hlen : inputs.length = m.timeout)
    (hnt : ∀ k, k ≤ inputs.length →
      ((m.run (inputs.take k)).map Mdp.inTerminal).getD false = false)
    (k : Nat) (hk : k ≤ inputs.length) :
    ∃ m', m.run (inputs.take k) = some m' ∧ (m'.done = true ↔ k = m.timeout) := by
  obtain ⟨m', s', hrun, hcs, hts', hterm, hto⟩ := Mdp.run_spec m s0 h0 (inputs.take k)
  refine ⟨m', hrun, ?_⟩
  have hlen' : (inputs.take k).length = k := by
    rw [List.length_take]
    omega
  have hterm' : s' ∉ m'.terminal_states := by
    have hh := hnt k hk
    rw [hrun] at hh
    simpa [Mdp.inTerminal, hcs] using hh
  rw [Mdp.done_iff m' s' hcs, hto, hts', hts, hlen']
  simp [hterm']

/-- Witness for C2: the concrete engine with `timeout = 11` and eleven
all-zero step calls; not done after the 10-step prefix, done after the
11th step. -/
theorem run_done_iff_timeout_witness :
    (∃ m', testMdp.run (c2Inputs.take 10) = some m' ∧ (m'.done = true ↔ 10 = testMdp.timeout)) ∧
    (∃ m', testMdp.run (c2Inputs.take 11) = some m' ∧ (m'.done = true ↔ 11 = testMdp.timeout)) :=
  ⟨Mdp.run_done_iff_timeout testMdp 0 rfl rfl (by decide) c2Inputs (by decide)
      (by decide) 10 (by decide),
    Mdp.run_done_iff_timeout testMdp 0 rfl rfl (by decide) c2Inputs (by decide)
      (by decide) 11 (by decide)⟩

/-- C3: on an engine with at least two states, `reset(uniform=true)` draws
from the uniform distribution with `nb_states - 1` outcomes of weight
`1/(nb_states-1)` each, so the returned state index is at most
`nb_states - 2` and the index `nb_states - 1` is never returned;
`reset(uniform=false)` draws from the configured start distribution `P0`. -/
theorem Mdp.reset_uniform_excludes_last_state (m : Mdp) (h : 2 ≤ m.nb_states)
    (draw draw2 : ℚ) :
    (m.reset true draw).1 =
      discreteProb
        (List.replicate (m.nb_states - 1) ((1 : ℚ) / ((m.nb_states - 1 : Nat) : ℚ))) draw ∧
    (m.reset true draw).1 < m.nb_states - 1 ∧
    (m.reset true draw).1 ≠ m.nb_states - 1 ∧
    (m.reset false draw2).1 = discreteProb m.P0 draw2 := by
  have hne : List.replicate (m.nb_states - 1) ((1 : ℚ) / ((m.nb_states - 1 : Nat) : ℚ)) ≠ [] := by
    simp only [ne_eq, List.replicate_eq_nil_iff]
    omega
  have hlt := discreteProb_lt_length _ draw hne
  rw [List.length_replicate] at hlt
  refine ⟨rfl, ?_, ?_, rfl⟩
  · simpa [Mdp.reset] using hlt
  · have : (m.reset true draw).1 < m.nb_states - 1 := by simpa [Mdp.reset] using hlt
    omega

/-- Witness for C3: the concrete three-state engine. -/
theorem reset_uniform_excludes_last_state_witness :
    2 ≤ testMdp.nb_states ∧
    ((testMdp.reset true 0).1 =
      discreteProb
        (List.replicate (testMdp.nb_states - 1)
          ((1 : ℚ) / ((testMdp.nb_states - 1 : Nat) : ℚ))) 0 ∧
    (testMdp.reset true 0).1 < testMdp.nb_states - 1 ∧
    (testMdp.reset true 0).1 ≠ testMdp.nb_states - 1 ∧
    (testMdp.reset false 0).1 = discreteProb testMdp.P0 0) :=
  ⟨by decide, Mdp.reset_uniform_excludes_last_state testMdp (by decide) 0 0⟩

/-- C6: every `reset` call sets `timestep` to 0, sets the
last-action-achieved flag to `False`, and returns the new `current_state`;
hence when `uniform = false`, the sampled start state is not terminal and
`timeout` is positive, `done()` right after the reset is false. -/
theorem Mdp.reset_initializes_episode (m : Mdp) (uniform : Bool) (draw : ℚ) :
    (m.reset uniform draw).2.timestep = 0 ∧
    (m.reset uniform draw).2.last_action_achieved = some false ∧
    (m.reset uniform draw).2.current_state = some (m.reset uniform draw).1 ∧
    (uniform = false → (m.reset uniform draw).1 ∉ m.terminal_states → 0 < m.timeout →
      (m.reset uniform draw).2.done = false) := by
  refine ⟨rfl, rfl, rfl, ?_⟩
  intro _ hs ht
  have hiff := Mdp.done_iff (m.reset uniform draw).2 (m.reset uniform draw).1 rfl
  rw [Bool.eq_false_iff, Ne, hiff]
  rintro (hmem | htime)
  · exact hs (by simpa [Mdp.reset] using hmem)
  · have h0 : (m.reset uniform draw).2.timestep = 0 := rfl
    have hto : (m.reset uniform draw).2.timeout = m.timeout := rfl
    omega

/-- Witness for C6: the concrete engine reset with `uniform = false` and
draw 0, landing in the non-terminal state 0. -/
theorem reset_initializes_episode_witness :
    (testMdp.reset false 0).2.timestep = 0 ∧
    (testMdp.reset false 0).2.last_action_achieved = some false ∧
    (testMdp.reset false 0).2.current_state = some (testMdp.reset false 0).1 ∧
    (testMdp.reset false 0).2.done = false :=
  have h := Mdp.reset_initializes_episode testMdp false 0
  ⟨h.1, h.2.1, h.2.2.1, h.2.2.2 rfl (by decide) (by decide)⟩

/-- C5: constructing the engine with `timeout` at most 10 fails (the object
is never produced), while any `timeout` above 10 yields the constructed
engine; the check happens at construction time. -/
theorem Mdp.init_requires_timeout_above_ten (nb_states : Nat)
    (action_space : SimpleActionSpace (Nat ⊕ ℚ)) (start_distribution : List ℚ)
    (transition_matrix : Nat → Nat → List ℚ) (reward_matrix : Nat → Nat → ℚ)
    (gamma : ℚ) (terminal_states : Option (List Nat)) (timeout : Nat)
    (has_state : Bool) :
    (timeout ≤ 10 →
      Mdp.init nb_states action_space start_distribution transition_matrix
        reward_matrix gamma terminal_states timeout has_state = none) ∧
    (10 < timeout →
      ∃ m, Mdp.init nb_states action_space start_distribution transition_matrix
          reward_matrix gamma terminal_states timeout has_state = some m ∧
        m.timeout = timeout ∧ m.timestep = 0 ∧ m.current_state = none) := by
  constructor
  · intro hle
    rw [Mdp.init, if_neg (by omega)]
  · intro hgt
    exact ⟨_, by rw [Mdp.init, if_pos hgt], rfl, rfl, rfl⟩

/-- Witness for C5: concrete construction attempts with `timeout = 5`
(rejected) and `timeout = 11` (accepted). -/
theorem init_requires_timeout_above_ten_witness :
    ((5 : Nat) ≤ 10 ∧
      Mdp.init 3 testActionSpace [1] (fun _ _ => [1]) (fun _ _ => 1) 1 none 5 true = none) ∧
    (10 < (11 : Nat) ∧
      ∃ m, Mdp.init 3 testActionSpace [1] (fun _ _ => [1]) (fun _ _ => 1) 1 none 11 true = some m ∧
        m.timeout = 11 ∧ m.timestep = 0 ∧ m.current_state = none) :=
  ⟨⟨by decide,
      (Mdp.init_requires_timeout_above_ten 3 testActionSpace [1] (fun _ _ => [1])
        (fun _ _ => 1) 1 none 5 true).1 (by decide)⟩,
    ⟨by decide,
      (Mdp.init_requires_timeout_above_ten 3 testActionSpace [1] (fun _ _ => [1])
        (fun _ _ => 1) 1 none 11 true).2 (by decide)⟩⟩

/-- C7: the agent state forwarded by `render` follows the branch priority of
the source: with `has_state` false the agent-state keyword is forwarded as
the null value and no policy is passed; otherwise an explicit `agent_pos`
override is forwarded without the policy; otherwise a defined
`current_state` is forwarded together with the policy array; otherwise
(before any reset) the call forwards neither an agent-state argument nor a
policy — in particular it does not raise. -/
theorem Mdp.render_branch_priority {pos : Type} (m : Mdp) (v policy : Option (List ℚ))
    (agent_pos : Option pos) (title mode : String) :
    (m.has_state = false →
      (m.render v policy agent_pos title mode).agent_state = some none ∧
      (m.render v policy agent_pos title mode).policy = none) ∧
    (m.has_state = true → ∀ p, agent_pos = some p →
      (m.render v policy agent_pos title mode).agent_state = some (some (Sum.inl p)) ∧
      (m.render v policy agent_pos title mode).policy = none) ∧
    (m.has_state = true → agent_pos = none → ∀ s, m.current_state = some s →
      (m.render v policy agent_pos title mode).agent_state = some (some (Sum.inr s)) ∧
      (m.render v policy agent_pos title mode).policy = some (policy.getD [])) ∧
    (m.has_state = true → agent_pos = none → m.current_state = none →
      (m.render v policy agent_pos title mode).agent_state = none ∧
      (m.render v policy agent_pos title mode).policy = none) := by
  refine ⟨?_, ?_, ?_, ?_⟩
  · intro hf
    simp [Mdp.render, hf]
  · intro ht p hp
    simp [Mdp.render, ht, hp]
  · intro ht hp s hs
    simp [Mdp.render, ht, hp, hs]
  · intro ht hp hs
    simp [Mdp.render, ht, hp, hs]

/-- Witness for C7: `render()` before any `reset()` on the concrete engine
with `has_state = true` forwards neither an agent-state argument nor a
policy. -/
theorem render_branch_priority_witness :
    testMdpPreReset.has_state = true ∧
    (none : Option Nat) = none ∧
    testMdpPreReset.current_state = none ∧
    ((testMdpPreReset.render none none (none : Option Nat) "t" "legacy").agent_state = none ∧
      (testMdpPreReset.render none none (none : Option Nat) "t" "legacy").policy = none) :=
  ⟨rfl, rfl, rfl,
    (Mdp.render_branch_priority testMdpPreReset none none none "t" "legacy").2.2.2 rfl rfl rfl⟩

/-- C8: on a non-empty action space built by the constructor, `sample` with
`prob_list` omitted delegates the draw to the discrete sampler with the
uniform weight vector (each weight `1/size`), and the value returned is
always a member of the ordered action sequence. -/
theorem SimpleActionSpace.init_sample_default_mem {α : Type}
    (action_list : Option (List α)) (nactions : Nat)
    (hne : (SimpleActionSpace.init action_list nactions).actions ≠ []) (u : ℚ) :
    (SimpleActionSpace.init action_list nactions).sample none u =
      (SimpleActionSpace.init action_list nactions).actions[
        discreteProb
          (List.replicate (SimpleActionSpace.init action_list nactions).size
            ((1 : ℚ) / ((SimpleActionSpace.init action_list nactions).size : ℚ))) u]? ∧
    ∃ a, (SimpleActionSpace.init action_list nactions).sample none u = some a ∧
      a ∈ (SimpleActionSpace.init action_list nactions).actions := by
  have hsize := SimpleActionSpace.init_size action_list nactions
  have hpos : 0 < (SimpleActionSpace.init action_list nactions).actions.length :=
    List.length_pos.mpr hne
  have hrep :
      List.replicate (SimpleActionSpace.init action_list nactions).size
        ((1 : ℚ) / ((SimpleActionSpace.init action_list nactions).size : ℚ)) ≠ [] := by
    simp only [ne_eq, List.replicate_eq_nil_iff]
    omega
  have hidx :
      discreteProb
          (List.replicate (SimpleActionSpace.init action_list nactions).size
            ((1 : ℚ) / ((SimpleActionSpace.init action_list nactions).size : ℚ))) u <
        (SimpleActionSpace.init action_list nactions).actions.length := by
    have h := discreteProb_lt_length _ u hrep
    rw [List.length_replicate] at h
    omega
  have hs :
      (SimpleActionSpace.init action_list nactions).sample none u =
        (SimpleActionSpace.init action_list nactions).actions[
          discreteProb
            (List.replicate (SimpleActionSpace.init action_list nactions).size
              ((1 : ℚ) / ((SimpleActionSpace.init action_list nactions).size : ℚ))) u]? := rfl
  refine ⟨hs, ?_⟩
  rw [hs, List.getElem?_eq_getElem hidx]
  exact ⟨_, rfl, List.getElem_mem hidx⟩

/-- Witness for C8: an action space built from two non-integer rational
identifiers; sampling with the default uniform weights returns a member. -/
theorem init_sample_default_mem_witness :
    (SimpleActionSpace.init (some [(3 : ℚ), 5]) 0).actions ≠ [] ∧
    ((SimpleActionSpace.init (some [(3 : ℚ), 5]) 0).sample none 0 =
      (SimpleActionSpace.init (some [(3 : ℚ), 5]) 0).actions[
        discreteProb
          (List.replicate (SimpleActionSpace.init (some [(3 : ℚ), 5]) 0).size
            ((1 : ℚ) / ((SimpleActionSpace.init (some [(3 : ℚ), 5]) 0).size : ℚ))) 0]? ∧
    ∃ a, (SimpleActionSpace.init (some [(3 : ℚ), 5]) 0).sample none 0 = some a ∧
      a ∈ (SimpleActionSpace.init (some [(3 : ℚ), 5]) 0).actions) :=
  ⟨by decide, SimpleActionSpace.init_sample_default_mem (some [(3 : ℚ), 5]) 0 (by decide) 0⟩
